import Mathlib

/-!
Shallow embedding of the multi-line card extraction and field-resolution
engine of `src/notes/MultilineCardNote.ts` (plus `NoteUtils.matchTagNamesWithTagIds`
from the same module file), together with theorems settling the frozen claims
about it.

Modelling conventions:
- JavaScript property bags (`Record<string, any>`) are modelled as association
  lists `List (String × PValue)` with unique keys (JS objects cannot hold
  duplicate keys); lookup takes the first matching key.
- Property values are modelled by `PValue` (string / number / boolean);
  JavaScript truthiness of such a value is `pvTruthy`, `String(v)` /
  `v.toString()` is `pvToString`.
- The external content renderer `convertToHTMLFile(content, format).html` is
  abstracted as an arbitrary function `rend : String → String → String`, and
  the external `escapeClozesAndMacroDelimiters` as `esc : String → String`;
  all theorems quantify over them.
- The graph proxy call `getPage(name) -> (id record) | null` is abstracted as an
  arbitrary `getPage : String → Option TagPage` (per the interface, a missing
  page yields null, modelled as `none`).
-/

namespace MultilineCard

/-- A JavaScript property value as stored in the property bag of a block. -/
inductive PValue where
  | str (s : String)
  | num (n : Nat)
  | bool (b : Bool)
deriving DecidableEq, Repr

/-- A JS object used as a property bag: association list with unique keys. -/
abbrev Props := List (String × PValue)

/-- Lookup `obj[key]` / `_.get(obj, key)` on a property bag: first matching key. -/
def getProp (props : Props) (key : String) : Option PValue :=
  (props.find? (fun kv => kv.1 == key)).map (fun kv => kv.2)

/-- JavaScript truthiness of a property value
(`""`, `0` and `false` are falsy). -/
def pvTruthy : PValue → Bool
  | PValue.str s => s ≠ ""
  | PValue.num n => n ≠ 0
  | PValue.bool b => b

/-- The JavaScript `v.toString()` / string interpolation of a property value. -/
def pvToString : PValue → String
  | PValue.str s => s
  | PValue.num n => toString n
  | PValue.bool b => cond b "true" "false"

/-- A block subtree (`ExtendedBlockEntity` restricted to the fields the
children renderer reads: `content`, `format`, `properties`, `children`). -/
inductive Blk where
  | mk (content : String) (format : String) (properties : Props)
       (children : List Blk) : Blk

/-- The state of a constructed `MultilineCardNote` that the card classifier
and field resolver read: uuid, raw content, format, property bag, resolved
classification tags and the child subtrees. -/
structure MultilineCardNote where
  uuid : String
  content : String
  format : String
  properties : Props
  tags : List String
  children : List Blk

/-- A page entity as returned by `LogseqProxy.Editor.getPage`, restricted to
the `id` field read by `matchTagNamesWithTagIds`. -/
structure TagPage where
  id : Nat
deriving DecidableEq, Repr

/-- A note produced by another card-type extractor; the dedup filter only
reads its `uuid` (`_.find(otherNotes, {uuid})`). -/
structure OtherNote where
  uuid : String
deriving DecidableEq, Repr

/-! ## NoteUtils.matchTagNamesWithTagIds -/

/-- Embeds `NoteUtils.matchTagNamesWithTagIds`: walks the candidate tag names in
order, resolves each via `getPage`, and pushes the name onto the result when
the page exists, its `id` is truthy (`tagPage && tagPage.id && ...`) and the
id is in the tag-id set. -/
def matchTagNamesWithTagIds (getPage : String → Option TagPage)
    (tagIds : List Nat) (tagNames : List String) : List String :=
  tagNames.foldl
    (fun result tagName =>
      match getPage tagName with
      | some tagPage =>
          if tagPage.id ≠ 0 ∧ tagIds.contains tagPage.id then result ++ [tagName]
          else result
      | none => result)
    []

/-! ## MultilineCardNote.getCardDirection -/

/-- Embeds `MultilineCardNote.getCardDirection`: an explicit `direction` property
equal (by JS strict equality, so necessarily a string) to one of `->`, `<-`,
`<->` is returned as-is; otherwise the direction is derived from the tags. -/
def getCardDirection (note : MultilineCardNote) : String :=
  let direction := getProp note.properties "direction"
  if direction ≠ some (PValue.str "->") ∧ direction ≠ some (PValue.str "<-") ∧
      direction ≠ some (PValue.str "<->") then
    if (note.tags.contains "reversed" ∧ note.tags.contains "forward") ∨
        note.tags.contains "bidirectional" then "<->"
    else if note.tags.contains "reversed" then "<-"
    else "->"
  else
    match direction with
    | some (PValue.str s) => s
    | _ => "->"   -- unreachable: here `direction` is one of the three strings

/-! ## MultilineCardNote.getChildrenMaxDepth -/

/-- Numeric value of a digit string (the `parseInt(match[1])` of an all-digit
regex capture). -/
def natOfDigits (s : String) : Nat :=
  s.foldl (fun a c => a * 10 + (c.toNat - 48)) 0

/-- The regex test `/^depth-(\d+)$/i.exec(tag)`: a case-insensitive
`depth-` prefix followed by one or more ASCII digits; yields the parsed
capture. -/
def parseDepthTag (tag : String) : Option Nat :=
  let pre := (tag.take 6).map Char.toLower
  let rest := tag.drop 6
  if pre = "depth-" ∧ rest ≠ "" ∧ rest.all Char.isDigit then
    some (natOfDigits rest)
  else none

/-- Embeds `MultilineCardNote.getChildrenMaxDepth`:
`let maxDepth = _.get(this, "properties.depth") || 9999` (a falsy `depth`
property, in particular the number 0, falls back to the 9999 sentinel), then
every tag matching `/^depth-(\d+)$/i` overwrites `maxDepth` in iteration
order. Non-numeric `depth` property values (which would flow into JS
string/number comparison coercion downstream) are outside the model and take
the sentinel. -/
def getChildrenMaxDepth (note : MultilineCardNote) : Nat :=
  let init : Nat :=
    match getProp note.properties "depth" with
    | some (PValue.num m) => if m ≠ 0 then m else 9999
    | _ => 9999
  note.tags.foldl
    (fun maxDepth tag =>
      match parseDepthTag tag with
      | some m => m
      | none => maxDepth)
    init

/-! ## MultilineCardNote.getRelevantTags -/

/-- The candidate vocabulary passed by `getRelevantTags` to
`matchTagNamesWithTagIds`: the four classification tags plus
`Array.from({length: 10}, (_, i) => "depth-" + i)`, i.e. `depth-0` … `depth-9`. -/
def relevantTagCandidates : List String :=
  ["forward", "reversed", "bidirectional", "incremental"] ++
    (List.range 10).map (fun i => "depth-" ++ toString i)

/-- Embeds `MultilineCardNote.getRelevantTags` (the trailing
`tags.map(tag => String(tag))` is the identity on strings). -/
def getRelevantTags (getPage : String → Option TagPage) (tagIds : List Nat) :
    List String :=
  matchTagNamesWithTagIds getPage tagIds relevantTagCandidates

/-! ## MultilineCardNote.getChildrenContent

The local async closure `getChildrenListHTML(childrenList, level = 0)` is
embedded as the mutual functions below; `esc` abstracts
`escapeClozesAndMacroDelimiters` and `rend` abstracts
`convertToHTMLFile(·, ·).html`. -/

mutual

/-- The closure `getChildrenListHTML(childrenList, level)`: returns `""` once
`level >= maxDepth`, else wraps the items in a `<ul class="children-list
left-border">` element. -/
def getChildrenListHTML (esc : String → String) (rend : String → String → String)
    (maxDepth : Nat) (childrenList : List Blk) (level : Nat) : String :=
  if level ≥ maxDepth then ""
  else
    "\n<ul class=\"children-list left-border\">" ++
      childrenItemsHTML esc rend maxDepth childrenList level ++ "</ul>"
termination_by (sizeOf childrenList, 1)

/-- The `for (const child of childrenList)` loop body accumulation: the
concatenation of the per-child `<li>` items. -/
def childrenItemsHTML (esc : String → String) (rend : String → String → String)
    (maxDepth : Nat) : List Blk → Nat → String
  | [], _ => ""
  | child :: rest, level =>
      childItemHTML esc rend maxDepth child level ++
        childrenItemsHTML esc rend maxDepth rest level
termination_by l _ => (sizeOf l, 0)

/-- One iteration of the loop: the `<li class="children …">` open tag (with
the `numbered` class when the order-list-type property equals `number`),
the escaped child content with an optional trailing
`<div class="extra">…</div>` rendered through the converter, the recursive
children list when the child has children, and the closing `</li>`. -/
def childItemHTML (esc : String → String) (rend : String → String → String)
    (maxDepth : Nat) : Blk → Nat → String
  | Blk.mk content format properties children, level =>
      let liOpen := "\n<li class=\"children " ++
        (if getProp properties "logseq.orderListType" = some (PValue.str "number")
          then "numbered" else "") ++ "\">"
      let sanitizedChildContent :=
        match getProp properties "extra" with
        | some childExtra =>
            if pvTruthy childExtra then
              esc content ++ "\n<div class=\"extra\">" ++ pvToString childExtra ++ "</div>"
            else esc content
        | none => esc content
      let sanitizedChildHTML :=
        rend sanitizedChildContent format ++
          (if children.length > 0 then
            getChildrenListHTML esc rend maxDepth children (level + 1)
          else "")
      liOpen ++ sanitizedChildHTML ++ "</li>"
termination_by b _ => (sizeOf b, 0)

end

/-- Embeds `MultilineCardNote.getChildrenContent`: the recursive children HTML of the
child subtrees of the note, starting at level 0 with the resolved maximum
depth of the note. -/
def getChildrenContent (esc : String → String) (rend : String → String → String)
    (note : MultilineCardNote) : String :=
  getChildrenListHTML esc rend (getChildrenMaxDepth note) note.children 0

/-- Truncation `truncateBlks d l`: the forest `l` cut off below `d` levels (`truncateBlks
0 l = []`; at positive depth each tree keeps its root and its children
truncated one level shallower). Used to state the depth-cap claim. -/
def truncateBlks : Nat → List Blk → List Blk
  | 0, _ => []
  | _ + 1, [] => []
  | d + 1, Blk.mk content format properties children :: rest =>
      Blk.mk content format properties (truncateBlks d children) ::
        truncateBlks (d + 1) rest
termination_by _ l => sizeOf l

/-! ## MultilineCardNote.getFieldContent -/

/-- Embeds `MultilineCardNote.getFieldContent(fieldMapping)`: `content` renders the
own content of the note, `children` produces the recursive children HTML,
any other mapping is looked up as a property name and its `toString()`
returned when the value is truthy (the source guards the lookup with a bare
truthiness test on the property value), else the empty string. -/
def getFieldContent (esc : String → String) (rend : String → String → String)
    (note : MultilineCardNote) (fieldMapping : String) : String :=
  if fieldMapping = "content" then rend note.content note.format
  else if fieldMapping = "children" then getChildrenContent esc rend note
  else
    match getProp note.properties fieldMapping with
    | some v => if pvTruthy v then pvToString v else ""
    | none => ""

/-! ## MultilineCardNote.getClozedContentHTML -/

/-- The `Object.entries(this.properties)` pass collecting keys that start with
`anki-field-`: yields `(key.replace("anki-field-", ""), value)` pairs in
property order (the mapping value is used as a string). -/
def ankiFieldEntries (props : Props) : List (String × String) :=
  props.filterMap
    (fun kv =>
      if kv.1.startsWith "anki-field-" then some (kv.1.drop 11, pvToString kv.2)
      else none)

/-- The `fieldContent` record after the declared-mapping loop: each declared
field name paired with its resolved mapping content. -/
def declaredFieldContent (esc : String → String) (rend : String → String → String)
    (note : MultilineCardNote) : List (String × String) :=
  (ankiFieldEntries note.properties).map
    (fun e => (e.1, getFieldContent esc rend note e.2))

/-- The `mainContent` local of `getClozedContentHTML`: the resolved `children`
field for reverse / bidirectional cards, else the resolved `content` field. -/
def cardMainContent (esc : String → String) (rend : String → String → String)
    (note : MultilineCardNote) : String :=
  let direction := getCardDirection note
  if direction = "<-" ∨ direction = "<->" then getFieldContent esc rend note "children"
  else getFieldContent esc rend note "content"

/-- The `ankiModel` local: `this.properties["anki-model"] || "Basic"` (the
string form of the value; a falsy value falls back to `"Basic"`). -/
def cardModel (note : MultilineCardNote) : String :=
  match getProp note.properties "anki-model" with
  | some v => if pvTruthy v then pvToString v else "Basic"
  | none => "Basic"

/-- The call `toLowerCase()` on a JS string (ASCII-relevant part), defined
over the character list so that it evaluates by kernel reduction. -/
def strToLower (s : String) : String := String.mk (s.data.map Char.toLower)

/-- The JS `includes(pat)` test on a string: some suffix of `s` starts with `pat`. -/
def strContainsSub (s pat : String) : Bool :=
  (List.range (s.length + 1)).any (fun i => pat.data.isPrefixOf (s.data.drop i))

/-- The final `fieldContent` record: when no `anki-field-` declaration was
present, defaults are synthesized from the model name (a model name containing
`cloze` case-insensitively gets a single `Text` field, anything else a
`Front`/`Back` pair); otherwise the declared fields are kept. -/
def assembledFieldContent (esc : String → String) (rend : String → String → String)
    (note : MultilineCardNote) : List (String × String) :=
  let fieldContent := declaredFieldContent esc rend note
  if fieldContent.length = 0 then
    if strContainsSub (strToLower (cardModel note)) "cloze" then
      [("Text", cardMainContent esc rend note)]
    else
      [("Front", cardMainContent esc rend note),
       ("Back", getFieldContent esc rend note "children")]
  else fieldContent

/-- The `JSON.stringify` escaping of one character of a string value. -/
def jsonEscapeChar (c : Char) : String :=
  if c = '"' then "\\\""
  else if c = '\\' then "\\\\"
  else if c = '\n' then "\\n"
  else if c = '\r' then "\\r"
  else if c = '\t' then "\\t"
  else if c.toNat = 8 then "\\b"
  else if c.toNat = 12 then "\\f"
  else if c.toNat < 32 then
    "\\u00" ++ String.singleton (Nat.digitChar (c.toNat / 16)) ++
      String.singleton (Nat.digitChar (c.toNat % 16))
  else String.singleton c

/-- The `JSON.stringify` serialization of a string. -/
def jsonStringifyStr (s : String) : String :=
  "\"" ++ (s.data.map jsonEscapeChar).foldl (· ++ ·) "" ++ "\""

/-- The `JSON.stringify` serialization of the string-valued `fieldContent` record. -/
def jsonStringifyPairs (l : List (String × String)) : String :=
  "\x7b" ++ String.intercalate ","
    (l.map (fun kv => jsonStringifyStr kv.1 ++ ":" ++ jsonStringifyStr kv.2)) ++ "\x7d"

/-- The hidden `anki-custom-data` div prepended to the card body (model name
and serialized field record), including the surrounding whitespace of the
template literal up to the `mainContent` interpolation. -/
def ankiCustomDataDiv (model fieldsJson : String) : String :=
  "\n            <div class=\"anki-custom-data\" style=\"display:none\">\n" ++
  "                <div class=\"anki-model\">" ++ model ++ "</div>\n" ++
  "                <div class=\"anki-fields\">" ++ fieldsJson ++ "</div>\n" ++
  "            </div>\n            "

/-- The produced card payload `{html, assets, tags}`. -/
structure HTMLFile where
  html : String
  assets : List String
  tags : List String

/-- Embeds `MultilineCardNote.getClozedContentHTML`: hidden custom-data div (model
name plus `JSON.stringify(fieldContent)`) followed by the visible
`mainContent` and the trailing whitespace of the template literal; assets
and tags are empty at this stage. -/
def getClozedContentHTML (esc : String → String) (rend : String → String → String)
    (note : MultilineCardNote) : HTMLFile :=
  { html := ankiCustomDataDiv (cardModel note)
        (jsonStringifyPairs (assembledFieldContent esc rend note)) ++
      cardMainContent esc rend note ++ "\n        "
    assets := []
    tags := [] }

/-! ## getNotesFromLogseqBlocks: note construction and the dedup filter -/

/-- A fully fetched block (`getBlock(uuid, {includeChildren: true})`)
restricted to the fields the note constructor reads. -/
structure FullBlock where
  uuid : String
  content : String
  format : String
  properties : Props
  refs : List Nat
  children : List Blk

/-- The `tagsFromParentCardGroup` computation for a block found by the
card-group query: the refs of the parent block resolved through
`getRelevantTags`, or `[]` when there is no parent block. -/
def cardGroupParentTags (getPage : String → Option TagPage)
    (parentBlock : Option FullBlock) : List String :=
  match parentBlock with
  | some parent => getRelevantTags getPage parent.refs
  | none => []

/-- The `new MultilineCardNote(...)` construction inside
`getNotesFromLogseqBlocks`: the tags of the note are the own resolved tags
of the block when non-empty (`tags && tags.length > 0`, and the resolved list
is always an array, hence truthy), else the parent card-group tags. -/
def mkNoteFromFullBlock (getPage : String → Option TagPage)
    (tagsFromParentCardGroup : List String) (fullBlock : FullBlock) :
    MultilineCardNote :=
  let tags := getRelevantTags getPage fullBlock.refs
  { uuid := fullBlock.uuid
    content := fullBlock.content
    format := fullBlock.format
    properties := fullBlock.properties
    tags := if tags.length > 0 then tags else tagsFromParentCardGroup
    children := fullBlock.children }

/-- The `_.filter` at the end of `getNotesFromLogseqBlocks`: retain a note
when its `direction` property is truthy, or its tags contain one of the three
direction tags, or it has children, or no other extractor produced a note
with the same uuid. -/
def dedupFilterMultiline (otherNotes : List OtherNote)
    (notes : List MultilineCardNote) : List MultilineCardNote :=
  notes.filter
    (fun note =>
      (match getProp note.properties "direction" with
        | some v => pvTruthy v
        | none => false) ||
      note.tags.contains "forward" ||
      note.tags.contains "bidirectional" ||
      note.tags.contains "reversed" ||
      decide (note.children.length > 0) ||
      !(otherNotes.any (fun o => o.uuid == note.uuid)))

/-! ## Shared concrete instances used by witnesses and counterexamples -/

/-- Identity stand-in for the escape collaborator, used at concrete inputs. -/
def escId : String → String := fun s => s

/-- Renderer stand-in returning the raw markup, used at concrete inputs. -/
def rendId : String → String → String := fun s _ => s

/-! ## Helper lemmas -/

/-- Getting the last element with a default commutes with consing: the head
becomes the default for the tail. -/
theorem getLast?_getD_cons (m : Nat) (xs : List Nat) :
    ∀ init : Nat, ((m :: xs).getLast?).getD init = (xs.getLast?).getD m := by
  induction xs generalizing m with
  | nil => intro init; rfl
  | cons y ys ih =>
    intro init
    rw [List.getLast?_cons_cons, ih y init, ← ih y m]

/-- The depth-tag overwrite loop keeps the last parsed depth tag (default:
the initial accumulator). -/
theorem foldl_parseDepthTag_eq_getLast (tags : List String) :
    ∀ init : Nat,
      tags.foldl
        (fun maxDepth tag =>
          match parseDepthTag tag with
          | some m => m
          | none => maxDepth) init =
      ((tags.filterMap parseDepthTag).getLast?).getD init := by
  induction tags with
  | nil => intro init; rfl
  | cons t l ih =>
    intro init
    rw [List.foldl_cons, List.filterMap_cons]
    cases h : parseDepthTag t with
    | none => simp only [h]; exact ih init
    | some m => simp only [h]; rw [ih m, getLast?_getD_cons]

/-! ## Claims -/

/-- C1: for every MultilineCardNote, getCardDirection returns the direction
property value whenever that property is one of the three arrows; otherwise
it is bidirectional if the tags contain both forward and reversed or contain
bidirectional, else reverse if the tags contain reversed, else forward. -/
theorem getCardDirection_direction_precedence (note : MultilineCardNote) :
    getCardDirection note =
      if getProp note.properties "direction" = some (PValue.str "->") then "->"
      else if getProp note.properties "direction" = some (PValue.str "<-") then "<-"
      else if getProp note.properties "direction" = some (PValue.str "<->") then "<->"
      else if (note.tags.contains "forward" ∧ note.tags.contains "reversed") ∨
          note.tags.contains "bidirectional" then "<->"
      else if note.tags.contains "reversed" then "<-"
      else "->" := by
  by_cases h1 : getProp note.properties "direction" = some (PValue.str "->")
  · simp [getCardDirection, h1]
  · by_cases h2 : getProp note.properties "direction" = some (PValue.str "<-")
    · simp [getCardDirection, h1, h2]
    · by_cases h3 : getProp note.properties "direction" = some (PValue.str "<->")
      · simp [getCardDirection, h1, h2, h3]
      · simp [getCardDirection, h1, h2, h3, and_comm]

/-- C3 (amended): getChildrenMaxDepth is the last depth tag in tag iteration
order when one exists; otherwise the value of a present truthy (nonzero)
numeric depth property; otherwise the 9999 sentinel. -/
theorem getChildrenMaxDepth_spec (note : MultilineCardNote) :
    getChildrenMaxDepth note =
      match (note.tags.filterMap parseDepthTag).getLast? with
      | some m => m
      | none =>
          match getProp note.properties "depth" with
          | some (PValue.num m) => if m ≠ 0 then m else 9999
          | _ => 9999 := by
  unfold getChildrenMaxDepth
  rw [foldl_parseDepthTag_eq_getLast]
  cases h : (note.tags.filterMap parseDepthTag).getLast? <;> simp [h]

/-- Note holding a present but falsy depth property (the number 0). -/
def depthZeroNote : MultilineCardNote :=
  { uuid := "u-depth", content := "", format := "markdown",
    properties := [("depth", PValue.num 0)], tags := [], children := [] }

/-- C3 counterexample: a note whose depth property is present with value 0
resolves to 9999, not to the property value, refuting the claim that a
present depth property is returned as the max depth. -/
theorem getChildrenMaxDepth_depth_zero_cex :
    getProp depthZeroNote.properties "depth" = some (PValue.num 0) ∧
    getChildrenMaxDepth depthZeroNote = 9999 := by
  exact ⟨rfl, rfl⟩

/-- C4 (amended): for a mapping that is neither `content` nor `children`,
field resolution returns the string form of a present truthy property value
and the empty string otherwise; it is a total function. -/
theorem getFieldContent_property_spec (esc : String → String)
    (rend : String → String → String) (note : MultilineCardNote)
    (mapping : String) (h1 : mapping ≠ "content") (h2 : mapping ≠ "children") :
    getFieldContent esc rend note mapping =
      match getProp note.properties mapping with
      | some v => if pvTruthy v then pvToString v else ""
      | none => "" := by
  unfold getFieldContent
  rw [if_neg h1, if_neg h2]

/-- Note holding a present but falsy custom property (the number 0). -/
def zeroScoreNote : MultilineCardNote :=
  { uuid := "u-score", content := "c", format := "markdown",
    properties := [("score", PValue.num 0)], tags := [], children := [] }

/-- C4 witness: the amended theorem applied at a concrete mapping. -/
theorem getFieldContent_property_spec_witness :
    getFieldContent escId rendId zeroScoreNote "score" =
      (match getProp zeroScoreNote.properties "score" with
       | some v => if pvTruthy v then pvToString v else ""
       | none => "") :=
  getFieldContent_property_spec escId rendId zeroScoreNote "score"
    (by decide) (by decide)

/-- C4 counterexample: the property `score` is present on the note (with
value 0, whose string form is "0"), yet field resolution returns the empty
string, refuting the claim that a present property yields its string form. -/
theorem getFieldContent_falsy_property_cex :
    getProp zeroScoreNote.properties "score" = some (PValue.num 0) ∧
    getFieldContent escId rendId zeroScoreNote "score" = "" ∧
    pvToString (PValue.num 0) = "0" := by
  exact ⟨rfl, rfl, rfl⟩

/-- C5: for a note declaring no `anki-field-` property, the assembled field
record is synthesized from the model name: a single `Text` field holding the
main content for a model name containing `cloze` case-insensitively, else a
`Front` field holding the main content and a `Back` field holding the
resolved children content. -/
theorem assembledFieldContent_default_spec (esc : String → String)
    (rend : String → String → String) (note : MultilineCardNote)
    (h : note.properties.all (fun kv => !(kv.1.startsWith "anki-field-")) = true) :
    (strContainsSub (strToLower (cardModel note)) "cloze" = true →
      assembledFieldContent esc rend note =
        [("Text", cardMainContent esc rend note)]) ∧
    (strContainsSub (strToLower (cardModel note)) "cloze" = false →
      assembledFieldContent esc rend note =
        [("Front", cardMainContent esc rend note),
         ("Back", getFieldContent esc rend note "children")]) := by
  have hempty : ankiFieldEntries note.properties = [] := by
    unfold ankiFieldEntries
    rw [List.filterMap_eq_nil_iff]
    intro kv hkv
    have hf := (List.all_eq_true.mp h) kv hkv
    simp only [Bool.not_eq_true'] at hf
    simp [hf]
  unfold assembledFieldContent declaredFieldContent
  rw [hempty]
  constructor <;> intro hc <;> simp [hc]

/-- Note with an empty property bag (so no field declarations and the
default `Basic` model). -/
def emptyPropsNote : MultilineCardNote :=
  { uuid := "u-empty", content := "c", format := "markdown",
    properties := [], tags := [], children := [] }

/-- C5 witness: the default synthesis theorem applied to a note with no
properties (model `Basic`, which does not contain `cloze`). -/
theorem assembledFieldContent_default_spec_witness :
    strContainsSub (strToLower (cardModel emptyPropsNote)) "cloze" = false ∧
    assembledFieldContent escId rendId emptyPropsNote =
      [("Front", cardMainContent escId rendId emptyPropsNote),
       ("Back", getFieldContent escId rendId emptyPropsNote "children")] :=
  ⟨by decide,
    (assembledFieldContent_default_spec escId rendId emptyPropsNote (by decide)).2
      (by decide)⟩

/-- C6: the html payload is the hidden custom-data div followed by the
visible main content, and that main content is the resolved children field
when the resolved direction is reverse or bidirectional, else the resolved
content field. -/
theorem getClozedContentHTML_mainContent (esc : String → String)
    (rend : String → String → String) (note : MultilineCardNote) :
    (getClozedContentHTML esc rend note).html =
      ankiCustomDataDiv (cardModel note)
        (jsonStringifyPairs (assembledFieldContent esc rend note)) ++
      (if getCardDirection note = "<-" ∨ getCardDirection note = "<->" then
        getFieldContent esc rend note "children"
      else getFieldContent esc rend note "content") ++ "\n        " := rfl

/-- C7 (amended): the dedup filter retains a multi-line note if and only if
its direction property is present with a truthy value, or its tags include
forward, bidirectional or reversed, or it has at least one child block, or no
note from the other extractors has the same uuid. -/
theorem dedupFilterMultiline_mem (otherNotes : List OtherNote)
    (notes : List MultilineCardNote) (note : MultilineCardNote) :
    note ∈ dedupFilterMultiline otherNotes notes ↔
      note ∈ notes ∧
        ((∃ v, getProp note.properties "direction" = some v ∧ pvTruthy v = true) ∨
         "forward" ∈ note.tags ∨ "bidirectional" ∈ note.tags ∨
         "reversed" ∈ note.tags ∨ note.children ≠ [] ∨
         ¬ ∃ o ∈ otherNotes, o.uuid = note.uuid) := by
  unfold dedupFilterMultiline
  rw [List.mem_filter]
  refine and_congr_right (fun _ => ?_)
  cases h : getProp note.properties "direction" with
  | none => simp [h, List.length_pos, or_assoc]
  | some v => simp [h, List.length_pos, or_assoc]

/-- Note with a present but falsy (empty-string) direction property, no
tags and no children. -/
def emptyDirectionNote : MultilineCardNote :=
  { uuid := "dup-uuid", content := "", format := "markdown",
    properties := [("direction", PValue.str "")], tags := [], children := [] }

/-- C7 counterexample: a note that has a direction property (the empty
string) with no tags and no children is excluded by the dedup filter when
another extractor produced the same uuid, refuting the claim that having a
direction property suffices for retention. -/
theorem dedupFilterMultiline_empty_direction_cex :
    getProp emptyDirectionNote.properties "direction" = some (PValue.str "") ∧
    dedupFilterMultiline [{ uuid := "dup-uuid" }] [emptyDirectionNote] = [] := by
  exact ⟨rfl, rfl⟩

/-- The push loop of matchTagNamesWithTagIds, started from any accumulator,
is the accumulator followed by the filtered candidate list. -/
theorem matchTagNames_foldl_eq_filter (getPage : String → Option TagPage)
    (tagIds : List Nat) :
    ∀ (tagNames : List String) (acc : List String),
      tagNames.foldl
        (fun result tagName =>
          match getPage tagName with
          | some tagPage =>
              if tagPage.id ≠ 0 ∧ tagIds.contains tagPage.id then result ++ [tagName]
              else result
          | none => result) acc =
      acc ++ tagNames.filter
        (fun tagName =>
          match getPage tagName with
          | some tagPage => decide (tagPage.id ≠ 0) && tagIds.contains tagPage.id
          | none => false) := by
  intro tagNames
  induction tagNames with
  | nil => intro acc; simp
  | cons t l ih =>
    intro acc
    rw [List.foldl_cons, List.filter_cons]
    cases h : getPage t with
    | none => simp only [h]; rw [ih acc]; simp
    | some p =>
      by_cases hc : p.id ≠ 0 ∧ tagIds.contains p.id = true
      · simp only [h, if_pos hc]
        rw [ih (acc ++ [t])]
        have hm : p.id ∈ tagIds := by simpa using hc.2
        have : (decide (p.id ≠ 0) && tagIds.contains p.id) = true := by
          simp [hc.1, hm]
        rw [if_pos this, List.append_assoc]
        rfl
      · simp only [h, if_neg hc]
        rw [ih acc]
        have : ¬ ((decide (p.id ≠ 0) && tagIds.contains p.id) = true) := by
          simp only [Bool.and_eq_true, decide_eq_true_eq]
          exact hc
        rw [if_neg this]

/-- C8 (amended): tag resolution returns exactly the subsequence of candidate
names, in candidate order, whose resolved page id is truthy (nonzero) and a
member of the id set; a candidate whose lookup yields no page is excluded. -/
theorem matchTagNamesWithTagIds_spec (getPage : String → Option TagPage)
    (tagIds : List Nat) (tagNames : List String) :
    matchTagNamesWithTagIds getPage tagIds tagNames =
      tagNames.filter
        (fun tagName =>
          match getPage tagName with
          | some tagPage => decide (tagPage.id ≠ 0) && tagIds.contains tagPage.id
          | none => false) := by
  unfold matchTagNamesWithTagIds
  rw [matchTagNames_foldl_eq_filter]
  rfl

/-- Page-lookup environment resolving the single name `a` to a page whose
id is 0. -/
def zeroIdGetPage : String → Option TagPage :=
  fun name => if name = "a" then some { id := 0 } else none

/-- C8 counterexample: with the candidate `a` resolving to page id 0 and the
id set containing 0, the resolution returns the empty list although the
resolved page id is a member of the id set, refuting the claim. -/
theorem matchTagNamesWithTagIds_zero_id_cex :
    zeroIdGetPage "a" = some { id := 0 } ∧ (0 : Nat) ∈ [0] ∧
    matchTagNamesWithTagIds zeroIdGetPage [0] ["a"] = [] := by
  refine ⟨rfl, ?_, rfl⟩
  simp

/-- The classification tag vocabulary actually reachable from
getRelevantTags: the four classification tags and the ten depth tags
depth-0 through depth-9. -/
def relevantTagVocab : List String :=
  ["forward", "reversed", "bidirectional", "incremental",
   "depth-0", "depth-1", "depth-2", "depth-3", "depth-4",
   "depth-5", "depth-6", "depth-7", "depth-8", "depth-9"]

/-- C9 (amended): for every page-lookup environment and id set, the resolved
classification tag list is a subset of the vocabulary consisting of forward,
reversed, bidirectional, incremental and depth-0 through depth-9. -/
theorem getRelevantTags_subset_vocab (getPage : String → Option TagPage)
    (tagIds : List Nat) :
    (getRelevantTags getPage tagIds).all
      (fun t => relevantTagVocab.contains t) = true := by
  unfold getRelevantTags matchTagNamesWithTagIds
  rw [matchTagNames_foldl_eq_filter, List.nil_append, List.all_eq_true]
  intro t ht
  have h1 : t ∈ relevantTagCandidates := List.mem_of_mem_filter ht
  have h2 : relevantTagCandidates = relevantTagVocab := by rfl
  rw [h2] at h1
  simpa using h1

/-- Page-lookup environment resolving only the name `depth-0`, to a page
with id 7. -/
def depthZeroGetPage : String → Option TagPage :=
  fun name => if name = "depth-0" then some { id := 7 } else none

/-- C9 counterexample: a block whose tag ids contain the id of the page
`depth-0` resolves to the tag list `[depth-0]`, and `depth-0` is not in the
claimed vocabulary (which starts at depth-1), refuting the claim. -/
theorem getRelevantTags_depth_zero_cex :
    getRelevantTags depthZeroGetPage [7] = ["depth-0"] ∧
    ¬ ("depth-0" ∈ ["forward", "reversed", "bidirectional", "incremental",
        "depth-1", "depth-2", "depth-3", "depth-4", "depth-5",
        "depth-6", "depth-7", "depth-8", "depth-9"]) := by
  refine ⟨rfl, ?_⟩
  decide

/-- C10: the tags of a note built from a block found by the card-group query
are exactly the own resolved tags of the block when those are non-empty,
and exactly the resolved tags of the parent card-group block when the own
resolved tags are empty; the two lists are never merged. -/
theorem mkNoteFromFullBlock_tags_choice (getPage : String → Option TagPage)
    (parentBlock : Option FullBlock) (fullBlock : FullBlock) :
    (getRelevantTags getPage fullBlock.refs ≠ [] ∧
      (mkNoteFromFullBlock getPage (cardGroupParentTags getPage parentBlock)
          fullBlock).tags = getRelevantTags getPage fullBlock.refs) ∨
    (getRelevantTags getPage fullBlock.refs = [] ∧
      (mkNoteFromFullBlock getPage (cardGroupParentTags getPage parentBlock)
          fullBlock).tags = cardGroupParentTags getPage parentBlock) := by
  by_cases h : getRelevantTags getPage fullBlock.refs = []
  · right
    refine ⟨h, ?_⟩
    simp [mkNoteFromFullBlock, h]
  · left
    refine ⟨h, ?_⟩
    simp [mkNoteFromFullBlock, List.length_pos.mpr h]

/-- Truncation below a positive depth preserves the number of direct
children. -/
theorem truncateBlks_length (d : Nat) :
    ∀ l : List Blk, (truncateBlks (d + 1) l).length = l.length := by
  intro l
  induction l with
  | nil => simp [truncateBlks]
  | cons b rest ih =>
    cases b with
    | mk c f p ch => simp [truncateBlks, ih]

/-- Item rendering only reads the input forest down to the remaining depth
budget: with `d + 1` levels of budget left, truncating the forest at depth
`d + 1` does not change the rendered items. -/
theorem childrenItemsHTML_truncate (esc : String → String)
    (rend : String → String → String) (md : Nat) :
    ∀ (d : Nat) (cs : List Blk) (level : Nat), md = level + d + 1 →
      childrenItemsHTML esc rend md cs level =
        childrenItemsHTML esc rend md (truncateBlks (d + 1) cs) level := by
  intro d
  induction d with
  | zero =>
    intro cs
    induction cs with
    | nil => intro level h; simp [truncateBlks]
    | cons c rest ih =>
      intro level h
      cases c with
      | mk content format properties children =>
        simp only [truncateBlks, childrenItemsHTML]
        congr 1
        · have hge : level + 1 ≥ md := by omega
          simp only [childItemHTML, truncateBlks]
          simp [getChildrenListHTML, hge]
        · exact ih level h
  | succ e ihd =>
    intro cs
    induction cs with
    | nil => intro level h; simp [truncateBlks]
    | cons c rest ih =>
      intro level h
      cases c with
      | mk content format properties children =>
        simp only [truncateBlks, childrenItemsHTML]
        congr 1
        · simp only [childItemHTML]
          have hlt : ¬ (level + 1 ≥ md) := by omega
          by_cases hch : children.length > 0
          · have hch2 : (truncateBlks (e + 1) children).length > 0 := by
              rw [truncateBlks_length]; exact hch
            simp only [hch, hch2, if_true, gt_iff_lt]
            simp only [getChildrenListHTML, if_neg hlt]
            rw [ihd children (level + 1) (by omega)]
          · have hch2 : ¬ ((truncateBlks (e + 1) children).length > 0) := by
              rw [truncateBlks_length]; exact hch
            simp [hch, hch2]
        · exact ih level h

/-- The list rendering depends only on the forest truncated at the remaining
depth budget `md - level`. -/
theorem getChildrenListHTML_truncate (esc : String → String)
    (rend : String → String → String) (md : Nat) (cs : List Blk) (level : Nat) :
    getChildrenListHTML esc rend md cs level =
      getChildrenListHTML esc rend md (truncateBlks (md - level) cs) level := by
  by_cases hl : level ≥ md
  · simp [getChildrenListHTML, hl]
  · have h2 : md - level = (md - level - 1) + 1 := by omega
    rw [h2]
    simp only [getChildrenListHTML, if_neg hl]
    rw [childrenItemsHTML_truncate esc rend md (md - level - 1) cs level (by omega)]

/-- C2: for every escape and render collaborator, every child forest and
every resolved max depth N, the children rendering equals the rendering of
the forest truncated at N levels below the direct-children level — so no
content of a descendant deeper than the cap is emitted — and at N = 0 it
returns the empty string. -/
theorem getChildrenListHTML_depth_cap (esc : String → String)
    (rend : String → String → String) (maxDepth : Nat) (childrenList : List Blk) :
    getChildrenListHTML esc rend maxDepth childrenList 0 =
      getChildrenListHTML esc rend maxDepth (truncateBlks maxDepth childrenList) 0 ∧
    getChildrenListHTML esc rend 0 childrenList 0 = "" := by
  constructor
  · have h := getChildrenListHTML_truncate esc rend maxDepth childrenList 0
    simpa using h
  · simp [getChildrenListHTML]

end MultilineCard
